import Mathlib

/-!
Verification development for the cfg_template configuration-value registry
(`cfg_template.hpp` plus `example.cpp`).

The C++ code is shallowly embedded: the `AbstractCV` class hierarchy becomes a
structure holding the key, the help text, and a tagged variant `CVVal` (one
constructor per subclass); machine integers become `Int` with explicit
two-power wrapping where the C++ performs an integral conversion; functions
that throw become `Except`-valued functions.
-/

/-- Errors thrown by `std::stoi` (`std::invalid_argument` when no conversion
can be performed, `std::out_of_range` when the parsed value does not fit in
`int`). -/
inductive ParseError where
  | invalidArgument
  | outOfRange
deriving DecidableEq

/-- Errors surfaced by the registry: the read-only `std::runtime_error` thrown
by `AbstractCV::set` (carrying the parameter key), a propagated parse error,
and the null dereference that `ConfigTemplate` would perform on a parameter
missing from `mParms`. -/
inductive CfgError where
  | readOnly (key : String)
  | parse (e : ParseError)
  | missingParm
deriving DecidableEq

/-- The characters accepted by C `isspace` in the default locale. -/
def isSpaceChar (c : Char) : Bool :=
  c.toNat = 32 || c.toNat = 9 || c.toNat = 10 || c.toNat = 13 || c.toNat = 11 || c.toNat = 12

/-- Decimal digit test, by character code (codes 48 to 57). -/
def isDigitChar (c : Char) : Bool :=
  48 ≤ c.toNat && c.toNat ≤ 57

/-- Numeric value of a string of decimal digits. -/
def digitsToNat (ds : List Char) : Nat :=
  ds.foldl (fun a c => a * 10 + (c.toNat - 48)) 0

/-- Consume the optional single sign character that `std::stoi` accepts after
leading whitespace; returns (isNegative, rest). -/
def stripSign (cs : List Char) : Bool × List Char :=
  match cs with
  | [] => (false, [])
  | c :: rest =>
    if c = '-' then (true, rest)
    else if c = '+' then (false, rest)
    else (false, c :: rest)

/-- Value of the digit string under the consumed sign. -/
def signedVal (neg : Bool) (ds : List Char) : Int :=
  (if neg then (-1 : Int) else 1) * (digitsToNat ds : Int)

/-- The range check of `std::stoi`: the converted value must fit in a 32-bit
signed `int`, else `std::out_of_range` is thrown. -/
def rangeCheck (n : Int) : Except ParseError Int :=
  if n < -2147483648 ∨ 2147483647 < n then .error ParseError.outOfRange
  else .ok n

/-- Core of `std::stoi` after whitespace stripping: optional sign, then the
longest digit prefix; no digits means `std::invalid_argument`. -/
def stoiCore (cs : List Char) : Except ParseError Int :=
  if (stripSign cs).2.takeWhile isDigitChar = [] then .error ParseError.invalidArgument
  else rangeCheck (signedVal (stripSign cs).1 ((stripSign cs).2.takeWhile isDigitChar))

/-- Model of `std::stoi(s)` (base 10): skip leading whitespace, take an
optional sign and the longest digit prefix, ignore any trailing characters,
and fail if there is no digit or the value is outside the `int` range. -/
def stoi (s : String) : Except ParseError Int :=
  stoiCore (s.data.dropWhile isSpaceChar)

/-- ASCII uppercase conversion, as C `::toupper` in the default locale. -/
def toUpperAscii (c : Char) : Char :=
  if 97 ≤ c.toNat && c.toNat ≤ 122 then Char.ofNat (c.toNat - 32) else c

/-- `std::transform` of the whole string with `::toupper`. -/
def strUpper (s : String) : String :=
  ⟨s.data.map toUpperAscii⟩

/-- Helper to convert a string value to a bool: uppercase the input and map
the literals "0", "FALSE", "OFF" to false, everything else to true. -/
def strToBool (input : String) : Bool :=
  let upStr := strUpper input
  if upStr = "0" ∨ upStr = "FALSE" ∨ upStr = "OFF" then false else true

/-- Width and signedness of the `IntType` template parameter of the integer
config-value subclasses. -/
structure IntTy where
  bits : Nat
  signed : Bool
deriving DecidableEq

def int8 : IntTy := ⟨8, true⟩

def int16 : IntTy := ⟨16, true⟩

def int32 : IntTy := ⟨32, true⟩

def int64 : IntTy := ⟨64, true⟩

def uint8 : IntTy := ⟨8, false⟩

def uint16 : IntTy := ⟨16, false⟩

def uint64 : IntTy := ⟨64, false⟩

/-- The value an integral conversion to type `ty` produces: two-power
wrapping, twos-complement for signed destinations. -/
def wrapTy (ty : IntTy) (v : Int) : Int :=
  if ty.signed then ((v + 2 ^ (ty.bits - 1)) % 2 ^ ty.bits) - 2 ^ (ty.bits - 1)
  else v % 2 ^ ty.bits

/-- The stored state of each `AbstractCV` subclass: `mVal` of
`IntReadOnlyCV<IntType>`, `IntUpdatableCV<IntType>`, `BoolReadOnlyCV`,
`StrReadOnlyCV`. An integer payload is the already-converted value of the
given `IntType`. -/
inductive CVVal where
  | intRO (ty : IntTy) (v : Int)
  | intUpd (ty : IntTy) (v : Int)
  | boolRO (b : Bool)
  | strRO (s : String)
deriving DecidableEq

/-- Whether the variant rejects `set` (every subclass except
`IntUpdatableCV` inherits the throwing default). -/
def CVVal.isReadOnly : CVVal → Bool
  | .intUpd _ _ => false
  | _ => true

/-- `AbstractCV` flattened: the base-class fields `mKey` and `mHelp` plus the
subclass payload. -/
structure AbstractCV where
  mKey : String
  mHelp : String
  val : CVVal
deriving DecidableEq

/-- `AbstractCV::key()`. -/
def AbstractCV.key (cv : AbstractCV) : String := cv.mKey

/-- `AbstractCV::help()`. -/
def AbstractCV.hlp (cv : AbstractCV) : String := cv.mHelp

/-- `asStr()` of each subclass: `std::to_string(mVal)` for the integer
variants, the literals "true"/"false" for the bool variant, the stored
string for the string variant. -/
def AbstractCV.asStr (cv : AbstractCV) : String :=
  match cv.val with
  | .intRO _ v => toString v
  | .intUpd _ v => toString v
  | .boolRO b => if b then "true" else "false"
  | .strRO s => s

/-- `asInt()` of each subclass: the integer variants widen `mVal` to
`int64_t`; the bool variant converts to 0/1; the string variant runs
`std::stoi(mVal)` and can therefore throw. -/
def AbstractCV.asInt (cv : AbstractCV) : Except ParseError Int :=
  match cv.val with
  | .intRO _ v => .ok v
  | .intUpd _ v => .ok v
  | .boolRO b => .ok (if b then 1 else 0)
  | .strRO s => stoi s

/-- `asBool()` of each subclass: nonzero test for the integer variants, the
stored bool, `strToBool` for the string variant. -/
def AbstractCV.asBool (cv : AbstractCV) : Bool :=
  match cv.val with
  | .intRO _ v => if v = 0 then false else true
  | .intUpd _ v => if v = 0 then false else true
  | .boolRO b => b
  | .strRO s => strToBool s

/-- `set(v)`: only `IntUpdatableCV` overrides the base-class default, storing
`std::stoi(v)` converted to `IntType`; every other variant throws the
read-only `runtime_error` naming the key. -/
def AbstractCV.set (cv : AbstractCV) (v : String) : Except CfgError AbstractCV :=
  match cv.val with
  | .intUpd ty _ =>
    match stoi v with
    | .error e => .error (CfgError.parse e)
    | .ok n => .ok { cv with val := CVVal.intUpd ty (wrapTy ty n) }
  | _ => .error (CfgError.readOnly cv.key)

/-- The override mapping handed to `CVFactory`: parameter name to override
text. -/
def Overrides := List (String × String)

/-- `std::map::find`: first binding of the key, if any. -/
def assocLookup {α β : Type} [DecidableEq α] : List (α × β) → α → Option β
  | [], _ => none
  | (k, v) :: rest, key => if key = k then some v else assocLookup rest key

/-- Replace the value bound to a key (mirrors in-place mutation of the
uniquely-owned value object the map points to). -/
def assocReplace {α β : Type} [DecidableEq α] : List (α × β) → α → β → List (α × β)
  | [], _, _ => []
  | (k, v) :: rest, key, nv =>
    if key = k then (k, nv) :: rest else (k, v) :: assocReplace rest key nv

/-- `CVFactory::resolveVal` for an integer destination: the default is
returned as-is (it is already of `IntType`); an override is parsed with
`std::stoi` and the `int` result converted to `IntType` on return. -/
def resolveValInt (ty : IntTy) (overrides : Overrides) (overrideKey : String) (defValue : Int) :
    Except ParseError Int :=
  match assocLookup overrides overrideKey with
  | none => .ok defValue
  | some s => (stoi s).map (wrapTy ty)

/-- `CVFactory::resolveVal` for a string destination: the override text is
taken verbatim. -/
def resolveValStr (overrides : Overrides) (overrideKey : String) (defValue : String) : String :=
  match assocLookup overrides overrideKey with
  | none => defValue
  | some s => s

/-- `CVFactory::resolveVal` for a bool destination: the override text goes
through `strToBool`. -/
def resolveValBool (overrides : Overrides) (overrideKey : String) (defValue : Bool) : Bool :=
  match assocLookup overrides overrideKey with
  | none => defValue
  | some s => strToBool s

/-- `CVFactory::Make_IntReadOnlyCV<IntType>`. -/
def Make_IntReadOnlyCV (ty : IntTy) (overrides : Overrides) (key : String) (defVal : Int)
    (helpText : String) : Except ParseError AbstractCV :=
  (resolveValInt ty overrides key defVal).map fun v => ⟨key, helpText, CVVal.intRO ty v⟩

/-- `CVFactory::Make_StrReadOnlyCV`. -/
def Make_StrReadOnlyCV (overrides : Overrides) (key : String) (defVal : String)
    (helpText : String) : AbstractCV :=
  ⟨key, helpText, CVVal.strRO (resolveValStr overrides key defVal)⟩

/-- `CVFactory::Make_IntUpdatableCV<IntType>`. -/
def Make_IntUpdatableCV (ty : IntTy) (overrides : Overrides) (key : String) (defVal : Int)
    (helpText : String) : Except ParseError AbstractCV :=
  (resolveValInt ty overrides key defVal).map fun v => ⟨key, helpText, CVVal.intUpd ty v⟩

/-- `CVFactory::Make_BoolReadOnlyCV`. -/
def Make_BoolReadOnlyCV (overrides : Overrides) (key : String) (defVal : Bool)
    (helpText : String) : AbstractCV :=
  ⟨key, helpText, CVVal.boolRO (resolveValBool overrides key defVal)⟩

/-- `ConfigTemplate<TConfigEnum>`: the `mParms` map from parameter enum to
its config value. -/
structure ConfigTemplate (P : Type) [DecidableEq P] where
  mParms : List (P × AbstractCV)

/-- `convertToType` overload for `std::string`: `asStr()`. -/
def convertToTypeStr (cv : AbstractCV) : String := cv.asStr

/-- `convertToType` overload for an integer type: `static_cast<IntType>(asInt())`. -/
def convertToTypeInt (ty : IntTy) (cv : AbstractCV) : Except ParseError Int :=
  (cv.asInt).map (wrapTy ty)

/-- `convertToType` overload for `bool`: `asBool()`. -/
def convertToTypeBool (cv : AbstractCV) : Bool := cv.asBool

/-- `as_<std::string>(parm)` in state-passing form. A parameter missing from
`mParms` would make the C++ dereference a null `shared_ptr`; that is modelled
as `missingParm` with the state unchanged. -/
def ConfigTemplate.as_Str {P : Type} [DecidableEq P] (c : ConfigTemplate P) (parm : P) :
    Except CfgError String × ConfigTemplate P :=
  match assocLookup c.mParms parm with
  | none => (.error CfgError.missingParm, c)
  | some cv => (.ok (convertToTypeStr cv), c)

/-- `as_<IntType>(parm)` in state-passing form. -/
def ConfigTemplate.as_Int {P : Type} [DecidableEq P] (c : ConfigTemplate P) (ty : IntTy)
    (parm : P) : Except CfgError Int × ConfigTemplate P :=
  match assocLookup c.mParms parm with
  | none => (.error CfgError.missingParm, c)
  | some cv => ((convertToTypeInt ty cv).mapError CfgError.parse, c)

/-- `as_<bool>(parm)` in state-passing form. -/
def ConfigTemplate.as_Bool {P : Type} [DecidableEq P] (c : ConfigTemplate P) (parm : P) :
    Except CfgError Bool × ConfigTemplate P :=
  match assocLookup c.mParms parm with
  | none => (.error CfgError.missingParm, c)
  | some cv => (.ok (convertToTypeBool cv), c)

/-- `ConfigTemplate::set(parm, newVal)`: delegate to the stored value object;
a thrown exception leaves the registry unchanged. -/
def ConfigTemplate.set {P : Type} [DecidableEq P] (c : ConfigTemplate P) (parm : P)
    (newVal : String) : Except CfgError Unit × ConfigTemplate P :=
  match assocLookup c.mParms parm with
  | none => (.error CfgError.missingParm, c)
  | some cv =>
    match cv.set newVal with
    | .error e => (.error e, c)
    | .ok cv2 => (.ok (), ⟨assocReplace c.mParms parm cv2⟩)

/-- `DatabaseConfigParm` from `example.cpp`. -/
inductive DatabaseConfigParm where
  | MAX_ROWS_PER_ROWGROUP
  | STRIDESIZE
  | SHARED_FS_TYPE
  | CACHE_MEM_SZ
deriving DecidableEq

/-- The `ConfigTemplate<DatabaseConfigParm>` constructor specialization. -/
def mkDatabaseConfig (overrides : Overrides) :
    Except ParseError (ConfigTemplate DatabaseConfigParm) := do
  let a ← Make_IntReadOnlyCV int32 overrides "MAX_ROWS_PER_ROWGROUP" 10000
    "Maximum number of rows per row group."
  let b ← Make_IntReadOnlyCV int16 overrides "STRIDE_SIZE" 512 "Maximum stride size of a table"
  let c := Make_StrReadOnlyCV overrides "SHARED_FS" "alluxio" "The file system type"
  let d ← Make_IntUpdatableCV int64 overrides "CACHE_MEM_SZ" 0 "Memory size of cache"
  return ⟨[(DatabaseConfigParm.MAX_ROWS_PER_ROWGROUP, a), (DatabaseConfigParm.STRIDESIZE, b),
    (DatabaseConfigParm.SHARED_FS_TYPE, c), (DatabaseConfigParm.CACHE_MEM_SZ, d)]⟩

/-- `ClusterConfigParm` from `example.cpp`. -/
inductive ClusterConfigParm where
  | NUM_NODES
  | ZK_TIMEOUT
  | QUORUM_WRITE
  | INSERT_FLUSH
deriving DecidableEq

/-- The `ConfigTemplate<ClusterConfigParm>` constructor specialization. -/
def mkClusterConfig (overrides : Overrides) :
    Except ParseError (ConfigTemplate ClusterConfigParm) := do
  let a ← Make_IntReadOnlyCV int8 overrides "NUM_NODES" 3 "Number of nodes in the cluster."
  let b ← Make_IntReadOnlyCV int64 overrides "ZK_TIMEOUT" 10000 "Zookeeper timeout in milliseconds"
  let c := Make_StrReadOnlyCV overrides "QUORUM_WRITE" "true" "Is quorum write set"
  let d := Make_BoolReadOnlyCV overrides "INSERT_FLUSH" true "Does each insert flush?"
  return ⟨[(ClusterConfigParm.NUM_NODES, a), (ClusterConfigParm.ZK_TIMEOUT, b),
    (ClusterConfigParm.QUORUM_WRITE, c), (ClusterConfigParm.INSERT_FLUSH, d)]⟩

/-- The database registry built with no overrides. -/
def dbcfg0 : ConfigTemplate DatabaseConfigParm :=
  match mkDatabaseConfig [] with
  | .ok c => c
  | .error _ => ⟨[]⟩

/-- The database registry of `main`: override MAX_ROWS_PER_ROWGROUP to "512". -/
def dbcfg1 : ConfigTemplate DatabaseConfigParm :=
  match mkDatabaseConfig [("MAX_ROWS_PER_ROWGROUP", "512")] with
  | .ok c => c
  | .error _ => ⟨[]⟩

/-- The cluster registry built with no overrides. -/
def clcfg0 : ConfigTemplate ClusterConfigParm :=
  match mkClusterConfig [] with
  | .ok c => c
  | .error _ => ⟨[]⟩

/-- The cluster registry of `main`: override INSERT_FLUSH to "false". -/
def clcfg1 : ConfigTemplate ClusterConfigParm :=
  match mkClusterConfig [("INSERT_FLUSH", "false")] with
  | .ok c => c
  | .error _ => ⟨[]⟩

/-! ## Helper lemmas -/

theorem assocLookup_replace {α β : Type} [DecidableEq α] (l : List (α × β)) (k : α)
    (x nv : β) (h : assocLookup l k = some x) :
    assocLookup (assocReplace l k nv) k = some nv := by
  induction l with
  | nil => simp [assocLookup] at h
  | cons hd tl ih =>
    obtain ⟨a, b⟩ := hd
    by_cases hk : k = a
    · simp [assocReplace, assocLookup, hk]
    · simp [assocReplace, assocLookup, hk] at h ⊢
      exact ih h

theorem isDigitChar_not_space {c : Char} (h : isDigitChar c = true) : isSpaceChar c = false := by
  simp [isDigitChar] at h
  simp [isSpaceChar]
  omega

theorem isDigitChar_ne_minus {c : Char} (h : isDigitChar c = true) : c ≠ '-' := by
  intro he
  rw [he] at h
  exact absurd h (by decide)

theorem isDigitChar_ne_plus {c : Char} (h : isDigitChar c = true) : c ≠ '+' := by
  intro he
  rw [he] at h
  exact absurd h (by decide)

theorem takeWhile_all_append (p : Char → Bool) (l1 l2 : List Char)
    (h1 : ∀ a ∈ l1, p a = true) (h2 : ∀ a, l2.head? = some a → p a = false) :
    (l1 ++ l2).takeWhile p = l1 := by
  induction l1 with
  | nil =>
    cases l2 with
    | nil => rfl
    | cons a tl =>
      have := h2 a rfl
      simp [List.takeWhile_cons, this]
  | cons a tl ih =>
    have ha : p a = true := h1 a (List.mem_cons_self a tl)
    simp only [List.cons_append, List.takeWhile_cons, ha, if_true]
    rw [ih fun b hb => h1 b (List.mem_cons_of_mem a hb)]

theorem rangeCheck_ok {n m : Int} (h : rangeCheck n = .ok m) :
    m = n ∧ -2147483648 ≤ n ∧ n ≤ 2147483647 := by
  unfold rangeCheck at h
  split at h
  · exact absurd h (by simp)
  · rename_i hc
    push_neg at hc
    cases h
    exact ⟨rfl, hc.1, hc.2⟩

theorem stoiCore_invalid_iff (cs : List Char) :
    stoiCore cs = .error ParseError.invalidArgument ↔
      (stripSign cs).2.takeWhile isDigitChar = [] := by
  unfold stoiCore
  split
  · rename_i hc
    simp [hc]
  · rename_i hc
    simp only [hc, iff_false]
    unfold rangeCheck
    split <;> simp

theorem stoiCore_oor_iff (cs : List Char) :
    stoiCore cs = .error ParseError.outOfRange ↔
      ((stripSign cs).2.takeWhile isDigitChar ≠ [] ∧
        (signedVal (stripSign cs).1 ((stripSign cs).2.takeWhile isDigitChar) < -2147483648 ∨
          2147483647 < signedVal (stripSign cs).1 ((stripSign cs).2.takeWhile isDigitChar))) := by
  unfold stoiCore
  split
  · rename_i hc
    simp [hc]
  · rename_i hc
    unfold rangeCheck
    split <;> rename_i hr <;> simp [hc, hr]

/-! ## Claim theorems -/

/-- C1: for every parameter whose declared name is present in the override
mapping, the factory builds the ConfigValue from the override text parsed per
the destination storage kind (integer parse for integer destinations, the
boolean text rule for boolean destinations, verbatim text for text
destinations) rather than from the hard-coded default; in particular the
registry built with override MAX_ROWS_PER_ROWGROUP = "512" over a default of
10000 returns "512" from get as text. -/
theorem c1_override_applied (ty : IntTy) (ov : Overrides) (key defStr helpText : String)
    (dInt : Int) (dBool : Bool) (s : String)
    (hov : assocLookup ov key = some s) :
    Make_StrReadOnlyCV ov key defStr helpText = ⟨key, helpText, CVVal.strRO s⟩
    ∧ Make_BoolReadOnlyCV ov key dBool helpText = ⟨key, helpText, CVVal.boolRO (strToBool s)⟩
    ∧ Make_IntReadOnlyCV ty ov key dInt helpText
        = (stoi s).map (fun n => ⟨key, helpText, CVVal.intRO ty (wrapTy ty n)⟩)
    ∧ Make_IntUpdatableCV ty ov key dInt helpText
        = (stoi s).map (fun n => ⟨key, helpText, CVVal.intUpd ty (wrapTy ty n)⟩)
    ∧ mkDatabaseConfig [("MAX_ROWS_PER_ROWGROUP", "512")] = Except.ok dbcfg1
    ∧ (dbcfg1.as_Str DatabaseConfigParm.MAX_ROWS_PER_ROWGROUP).1 = Except.ok "512" := by
  refine ⟨?_, ?_, ?_, ?_, rfl, rfl⟩
  · simp [Make_StrReadOnlyCV, resolveValStr, hov]
  · simp [Make_BoolReadOnlyCV, resolveValBool, hov]
  · unfold Make_IntReadOnlyCV resolveValInt
    rw [hov]
    cases h : stoi s <;> simp [h, Except.map]
  · unfold Make_IntUpdatableCV resolveValInt
    rw [hov]
    cases h : stoi s <;> simp [h, Except.map]

/-- Witness for C1 at a concrete override mapping. -/
theorem c1_witness :
    assocLookup ([("K", "7")] : Overrides) "K" = some "7"
    ∧ Make_StrReadOnlyCV [("K", "7")] "K" "d" "x" = ⟨"K", "x", CVVal.strRO "7"⟩
    ∧ Make_IntReadOnlyCV int32 [("K", "7")] "K" 0 "x"
        = (stoi "7").map (fun n => ⟨"K", "x", CVVal.intRO int32 (wrapTy int32 n)⟩) :=
  ⟨rfl, (c1_override_applied int32 [("K", "7")] "K" "d" "x" 0 false "7" rfl).1,
    (c1_override_applied int32 [("K", "7")] "K" "d" "x" 0 false "7" rfl).2.2.1⟩

/-- C2: with an empty override mapping every factory operation stores the
hard-coded default as-is (no reparse), so subsequent gets return the declared
default coerced to the requested type. -/
theorem c2_defaults_used (ty : IntTy) (key defStr helpText : String) (dInt : Int)
    (dBool : Bool) :
    Make_IntReadOnlyCV ty [] key dInt helpText = .ok ⟨key, helpText, CVVal.intRO ty dInt⟩
    ∧ Make_IntUpdatableCV ty [] key dInt helpText = .ok ⟨key, helpText, CVVal.intUpd ty dInt⟩
    ∧ Make_StrReadOnlyCV [] key defStr helpText = ⟨key, helpText, CVVal.strRO defStr⟩
    ∧ Make_BoolReadOnlyCV [] key dBool helpText = ⟨key, helpText, CVVal.boolRO dBool⟩
    ∧ (dbcfg0.as_Str DatabaseConfigParm.MAX_ROWS_PER_ROWGROUP).1 = .ok "10000"
    ∧ (dbcfg0.as_Int int32 DatabaseConfigParm.STRIDESIZE).1 = .ok 512
    ∧ (dbcfg0.as_Int int64 DatabaseConfigParm.STRIDESIZE).1 = .ok 512
    ∧ (dbcfg0.as_Str DatabaseConfigParm.SHARED_FS_TYPE).1 = .ok "alluxio"
    ∧ (clcfg0.as_Int uint8 ClusterConfigParm.NUM_NODES).1 = .ok 3
    ∧ (clcfg0.as_Bool ClusterConfigParm.QUORUM_WRITE).1 = .ok true
    ∧ (clcfg0.as_Bool ClusterConfigParm.INSERT_FLUSH).1 = .ok true :=
  ⟨rfl, rfl, rfl, rfl, rfl, rfl, rfl, rfl, rfl, rfl, rfl⟩

/-- C5: get of an integer destination type returns the 64-bit projection
truncated to the destination width by twos-complement wrapping (the result
differs from the projection by a multiple of 2 to the width and lies in the
destination range), with no range check and no error; a stored 131072 projects
to 0 in 8 bits, 0 in 16 bits, and 131072 in 64 bits. -/
theorem c5_int_truncation (ty tys : IntTy) (k hp : String) (v : Int) (hb : 0 < ty.bits) :
    convertToTypeInt ty ⟨k, hp, CVVal.intRO tys v⟩ = .ok (wrapTy ty v)
    ∧ (∃ q : Int, wrapTy ty v = v - 2 ^ ty.bits * q)
    ∧ (ty.signed = true → -(2 ^ (ty.bits - 1)) ≤ wrapTy ty v ∧ wrapTy ty v < 2 ^ (ty.bits - 1))
    ∧ (ty.signed = false → 0 ≤ wrapTy ty v ∧ wrapTy ty v < 2 ^ ty.bits)
    ∧ ((⟨[((0 : Nat), ⟨"P", "h", CVVal.intRO int64 131072⟩)]⟩ :
        ConfigTemplate Nat).as_Int uint8 0).1 = .ok 0
    ∧ ((⟨[((0 : Nat), ⟨"P", "h", CVVal.intRO int64 131072⟩)]⟩ :
        ConfigTemplate Nat).as_Int int16 0).1 = .ok 0
    ∧ ((⟨[((0 : Nat), ⟨"P", "h", CVVal.intRO int64 131072⟩)]⟩ :
        ConfigTemplate Nat).as_Int int64 0).1 = .ok 131072 := by
  have hpow : (2 : Int) ^ ty.bits = 2 ^ (ty.bits - 1) * 2 := by
    rw [← pow_succ]
    congr 1
    omega
  have hpos : (0 : Int) < 2 ^ ty.bits := by positivity
  refine ⟨rfl, ?_, ?_, ?_, rfl, rfl, rfl⟩
  · by_cases hs : ty.signed
    · refine ⟨(v + 2 ^ (ty.bits - 1)) / 2 ^ ty.bits, ?_⟩
      simp only [wrapTy, hs, if_true]
      rw [Int.emod_def]
      ring
    · refine ⟨v / 2 ^ ty.bits, ?_⟩
      have hs2 : ty.signed = false := by simpa using hs
      simp only [wrapTy, hs2, Bool.false_eq_true, if_false]
      rw [Int.emod_def]
  · intro hs
    have h0 : (0 : Int) ≤ (v + 2 ^ (ty.bits - 1)) % 2 ^ ty.bits :=
      Int.emod_nonneg _ (by positivity)
    have h1 : (v + 2 ^ (ty.bits - 1)) % 2 ^ ty.bits < 2 ^ ty.bits :=
      Int.emod_lt_of_pos _ hpos
    simp only [wrapTy, hs, if_true]
    constructor <;> linarith [hpow]
  · intro hs
    have h0 : (0 : Int) ≤ v % 2 ^ ty.bits := Int.emod_nonneg _ (by positivity)
    have h1 : v % 2 ^ ty.bits < 2 ^ ty.bits := Int.emod_lt_of_pos _ hpos
    simp only [wrapTy, hs, Bool.false_eq_true, if_false]
    exact ⟨h0, h1⟩

/-- Witness for C5 at the 8-bit unsigned destination. -/
theorem c5_witness :
    0 < uint8.bits
    ∧ convertToTypeInt uint8 ⟨"P", "h", CVVal.intRO int64 131072⟩ = .ok (wrapTy uint8 131072)
    ∧ (∃ q : Int, wrapTy uint8 (131072 : Int) = 131072 - 2 ^ uint8.bits * q) :=
  ⟨by decide, (c5_int_truncation uint8 int64 "P" "h" 131072 (by decide)).1,
    (c5_int_truncation uint8 int64 "P" "h" 131072 (by decide)).2.1⟩

/-- C6: a text-variant ConfigValue projects to false exactly when its text
uppercases to "0", "FALSE" or "OFF" (case-insensitive match), every other
string including the empty one projecting to true; an integer variant projects
to true exactly when the stored value is nonzero. -/
theorem c6_bool_projection (k hp s : String) (ty : IntTy) (v : Int) (b : Bool) :
    (AbstractCV.asBool ⟨k, hp, CVVal.strRO s⟩
        = if strUpper s = "0" ∨ strUpper s = "FALSE" ∨ strUpper s = "OFF" then false else true)
    ∧ (AbstractCV.asBool ⟨k, hp, CVVal.intRO ty v⟩ = true ↔ v ≠ 0)
    ∧ (AbstractCV.asBool ⟨k, hp, CVVal.intUpd ty v⟩ = true ↔ v ≠ 0)
    ∧ AbstractCV.asBool ⟨k, hp, CVVal.boolRO b⟩ = b
    ∧ AbstractCV.asBool ⟨k, hp, CVVal.strRO ""⟩ = true
    ∧ strToBool "true" = true ∧ strToBool "TRUE" = true ∧ strToBool "1" = true
    ∧ strToBool "yes" = true ∧ strToBool "0" = false ∧ strToBool "false" = false
    ∧ strToBool "off" = false ∧ strToBool "OFF" = false := by
  refine ⟨rfl, ?_, ?_, rfl, rfl, rfl, rfl, rfl, rfl, rfl, rfl, rfl, rfl⟩
  · by_cases hv : v = 0 <;> simp [AbstractCV.asBool, hv]
  · by_cases hv : v = 0 <;> simp [AbstractCV.asBool, hv]

/-- C9: a boolean-variant ConfigValue prints exactly the lowercase literal
"true" or "false" from asText, and that text round-trips through the boolean
text rule back to the stored boolean. -/
theorem c9_bool_asstr_roundtrip (k hp : String) (b : Bool) :
    AbstractCV.asStr ⟨k, hp, CVVal.boolRO b⟩ = (if b then "true" else "false")
    ∧ convertToTypeStr ⟨k, hp, CVVal.boolRO b⟩ = (if b then "true" else "false")
    ∧ strToBool (AbstractCV.asStr ⟨k, hp, CVVal.boolRO b⟩) = b := by
  cases b <;> exact ⟨rfl, rfl, rfl⟩

/-- C3: set on any read-only variant fails with the read-only error naming the
offending parameter, never mutates the stored value, and a get immediately
afterwards returns the same value as before; concretely, the cluster registry
with INSERT_FLUSH overridden to "false" reads it back as boolean false and
rejects a set on it. -/
theorem c3_readonly_set_fails {P : Type} [DecidableEq P] (c : ConfigTemplate P) (parm : P)
    (cv : AbstractCV) (v : String)
    (hdecl : assocLookup c.mParms parm = some cv)
    (hro : cv.val.isReadOnly = true) :
    (c.set parm v).1 = .error (CfgError.readOnly cv.key)
    ∧ (c.set parm v).2 = c
    ∧ ((c.set parm v).2.as_Str parm).1 = (c.as_Str parm).1
    ∧ ((c.set parm v).2.as_Bool parm).1 = (c.as_Bool parm).1
    ∧ (∀ ty, ((c.set parm v).2.as_Int ty parm).1 = (c.as_Int ty parm).1)
    ∧ (clcfg1.as_Bool ClusterConfigParm.INSERT_FLUSH).1 = .ok false
    ∧ (clcfg1.set ClusterConfigParm.INSERT_FLUSH "true").1
        = .error (CfgError.readOnly "INSERT_FLUSH")
    ∧ (clcfg1.set ClusterConfigParm.INSERT_FLUSH "true").2 = clcfg1 := by
  have hset : cv.set v = .error (CfgError.readOnly cv.key) := by
    unfold AbstractCV.set
    cases hv : cv.val <;> simp_all [CVVal.isReadOnly]
  have hs2 : c.set parm v = (.error (CfgError.readOnly cv.key), c) := by
    simp [ConfigTemplate.set, hdecl, hset]
  rw [hs2]
  exact ⟨rfl, rfl, rfl, rfl, fun ty => rfl, rfl, rfl, rfl⟩

/-- Witness for C3 at the INSERT_FLUSH parameter of the cluster registry. -/
theorem c3_witness :
    assocLookup clcfg1.mParms ClusterConfigParm.INSERT_FLUSH
        = some ⟨"INSERT_FLUSH", "Does each insert flush?", CVVal.boolRO false⟩
    ∧ CVVal.isReadOnly (CVVal.boolRO false) = true
    ∧ (clcfg1.set ClusterConfigParm.INSERT_FLUSH "x").1
        = .error (CfgError.readOnly "INSERT_FLUSH")
    ∧ (clcfg1.set ClusterConfigParm.INSERT_FLUSH "x").2 = clcfg1 :=
  ⟨rfl, rfl,
    (c3_readonly_set_fails clcfg1 ClusterConfigParm.INSERT_FLUSH
      ⟨"INSERT_FLUSH", "Does each insert flush?", CVVal.boolRO false⟩ "x" rfl rfl).1,
    (c3_readonly_set_fails clcfg1 ClusterConfigParm.INSERT_FLUSH
      ⟨"INSERT_FLUSH", "Does each insert flush?", CVVal.boolRO false⟩ "x" rfl rfl).2.1⟩

/-- C4: set on an updatable-integer parameter with valid integer text replaces
the stored value, so every subsequent get sees the new value and the previous
value is not observable; concretely set(CACHE_MEM_SZ, "4096000") on the
default database registry followed by get as unsigned 64-bit yields 4096000. -/
theorem c4_updatable_set {P : Type} [DecidableEq P] (c : ConfigTemplate P) (parm : P)
    (cv : AbstractCV) (ty tyR : IntTy) (w0 n : Int) (s : String)
    (hdecl : assocLookup c.mParms parm = some cv)
    (hval : cv.val = CVVal.intUpd ty w0)
    (hstoi : stoi s = .ok n) :
    (c.set parm s).1 = .ok ()
    ∧ assocLookup (c.set parm s).2.mParms parm
        = some { cv with val := CVVal.intUpd ty (wrapTy ty n) }
    ∧ ((c.set parm s).2.as_Int tyR parm).1 = .ok (wrapTy tyR (wrapTy ty n))
    ∧ ((c.set parm s).2.as_Str parm).1 = .ok (toString (wrapTy ty n))
    ∧ (dbcfg0.set DatabaseConfigParm.CACHE_MEM_SZ "4096000").1 = .ok ()
    ∧ ((dbcfg0.set DatabaseConfigParm.CACHE_MEM_SZ "4096000").2.as_Int uint64
        DatabaseConfigParm.CACHE_MEM_SZ).1 = .ok 4096000 := by
  have hset : cv.set s = .ok { cv with val := CVVal.intUpd ty (wrapTy ty n) } := by
    unfold AbstractCV.set
    rw [hval, hstoi]
  have hs2 : c.set parm s = (.ok (), ⟨assocReplace c.mParms parm
      { cv with val := CVVal.intUpd ty (wrapTy ty n) }⟩) := by
    simp [ConfigTemplate.set, hdecl, hset]
  have hlk : assocLookup (c.set parm s).2.mParms parm
      = some { cv with val := CVVal.intUpd ty (wrapTy ty n) } := by
    rw [hs2]
    exact assocLookup_replace c.mParms parm cv _ hdecl
  refine ⟨by rw [hs2], hlk, ?_, ?_, rfl, rfl⟩
  · simp [ConfigTemplate.as_Int, hlk, convertToTypeInt, AbstractCV.asInt, Except.map,
      Except.mapError]
  · simp [ConfigTemplate.as_Str, hlk, convertToTypeStr, AbstractCV.asStr]

/-- Witness for C4 on the database registry scenario. -/
theorem c4_witness :
    assocLookup dbcfg0.mParms DatabaseConfigParm.CACHE_MEM_SZ
        = some ⟨"CACHE_MEM_SZ", "Memory size of cache", CVVal.intUpd int64 0⟩
    ∧ stoi "4096000" = .ok 4096000
    ∧ (dbcfg0.set DatabaseConfigParm.CACHE_MEM_SZ "4096000").1 = .ok ()
    ∧ ((dbcfg0.set DatabaseConfigParm.CACHE_MEM_SZ "4096000").2.as_Int uint64
        DatabaseConfigParm.CACHE_MEM_SZ).1 = .ok 4096000 :=
  ⟨rfl, rfl,
    (c4_updatable_set dbcfg0 DatabaseConfigParm.CACHE_MEM_SZ
      ⟨"CACHE_MEM_SZ", "Memory size of cache", CVVal.intUpd int64 0⟩
      int64 uint64 0 4096000 "4096000" rfl rfl rfl).1,
    (c4_updatable_set dbcfg0 DatabaseConfigParm.CACHE_MEM_SZ
      ⟨"CACHE_MEM_SZ", "Memory size of cache", CVVal.intUpd int64 0⟩
      int64 uint64 0 4096000 "4096000" rfl rfl rfl).2.2.2.2.2⟩

/-- C10: get of any supported destination type on a declared parameter leaves
the registry state (every stored value, name and help text) unchanged, and two
consecutive gets with no intervening set return equal results. -/
theorem c10_get_frame {P : Type} [DecidableEq P] (c : ConfigTemplate P) (parm : P)
    (cv : AbstractCV) (ty : IntTy)
    (hdecl : assocLookup c.mParms parm = some cv) :
    (c.as_Str parm).2 = c
    ∧ (c.as_Int ty parm).2 = c
    ∧ (c.as_Bool parm).2 = c
    ∧ ((c.as_Str parm).2.as_Str parm).1 = (c.as_Str parm).1
    ∧ ((c.as_Int ty parm).2.as_Int ty parm).1 = (c.as_Int ty parm).1
    ∧ ((c.as_Bool parm).2.as_Bool parm).1 = (c.as_Bool parm).1
    ∧ (∀ parm2, assocLookup (c.as_Str parm).2.mParms parm2 = assocLookup c.mParms parm2) := by
  have h1 : c.as_Str parm = (.ok (convertToTypeStr cv), c) := by
    simp [ConfigTemplate.as_Str, hdecl]
  have h2 : c.as_Int ty parm = ((convertToTypeInt ty cv).mapError CfgError.parse, c) := by
    simp [ConfigTemplate.as_Int, hdecl]
  have h3 : c.as_Bool parm = (.ok (convertToTypeBool cv), c) := by
    simp [ConfigTemplate.as_Bool, hdecl]
  refine ⟨by rw [h1], by rw [h2], by rw [h3], by simp [h1], by simp [h2], by simp [h3],
    fun parm2 => by simp [h1]⟩

/-- Witness for C10 on the database registry. -/
theorem c10_witness :
    assocLookup dbcfg0.mParms DatabaseConfigParm.STRIDESIZE
        = some ⟨"STRIDE_SIZE", "Maximum stride size of a table", CVVal.intRO int16 512⟩
    ∧ (dbcfg0.as_Str DatabaseConfigParm.STRIDESIZE).2 = dbcfg0
    ∧ (dbcfg0.as_Int int64 DatabaseConfigParm.STRIDESIZE).2 = dbcfg0 :=
  ⟨rfl,
    (c10_get_frame dbcfg0 DatabaseConfigParm.STRIDESIZE
      ⟨"STRIDE_SIZE", "Maximum stride size of a table", CVVal.intRO int16 512⟩ int64 rfl).1,
    (c10_get_frame dbcfg0 DatabaseConfigParm.STRIDESIZE
      ⟨"STRIDE_SIZE", "Maximum stride size of a table", CVVal.intRO int16 512⟩ int64 rfl).2.1⟩

/-- C7 counterexample: asInteger on a text variant does not fail iff the
stored text is not a valid integer literal. The stored text "512abc" is not an
integer literal (it contains non-digit, non-sign characters) yet asInteger
succeeds with 512; the stored text "9999999999" is an integer literal (all
digits) yet asInteger fails. -/
theorem c7_counterexample :
    AbstractCV.asInt ⟨"K", "h", CVVal.strRO "512abc"⟩ = .ok 512
    ∧ List.all "512abc".data (fun ch => isDigitChar ch || ch == '-' || ch == '+') = false
    ∧ AbstractCV.asInt ⟨"K", "h", CVVal.strRO "9999999999"⟩ = .error ParseError.outOfRange
    ∧ List.all "9999999999".data isDigitChar = true :=
  ⟨rfl, rfl, rfl, rfl⟩

/-- C7 amended: asInteger returns the canonical value as a 64-bit signed
integer; boolean variants give 0 or 1; a text variant applies the stoi parse
to the stored text, which fails with the invalid-argument parse error iff the
text (after optional whitespace and one optional sign) starts with no digit,
fails with the out-of-range parse error iff the parsed digit prefix lies
outside the 32-bit signed int range, and otherwise returns the value of that
digit prefix, ignoring trailing characters. -/
theorem c7_asint_amended (k hp s : String) (b : Bool) (ty : IntTy) (v : Int) :
    AbstractCV.asInt ⟨k, hp, CVVal.boolRO b⟩ = .ok (if b then 1 else 0)
    ∧ AbstractCV.asInt ⟨k, hp, CVVal.intRO ty v⟩ = .ok v
    ∧ AbstractCV.asInt ⟨k, hp, CVVal.strRO s⟩ = stoi s
    ∧ (stoi s = .error ParseError.invalidArgument ↔
        (stripSign (s.data.dropWhile isSpaceChar)).2.takeWhile isDigitChar = [])
    ∧ (stoi s = .error ParseError.outOfRange ↔
        ((stripSign (s.data.dropWhile isSpaceChar)).2.takeWhile isDigitChar ≠ [] ∧
          (signedVal (stripSign (s.data.dropWhile isSpaceChar)).1
              ((stripSign (s.data.dropWhile isSpaceChar)).2.takeWhile isDigitChar)
              < -2147483648 ∨
            2147483647 < signedVal (stripSign (s.data.dropWhile isSpaceChar)).1
              ((stripSign (s.data.dropWhile isSpaceChar)).2.takeWhile isDigitChar))))
    ∧ (∀ n : Int, stoi s = .ok n →
        n = signedVal (stripSign (s.data.dropWhile isSpaceChar)).1
          ((stripSign (s.data.dropWhile isSpaceChar)).2.takeWhile isDigitChar)) := by
  refine ⟨rfl, rfl, rfl, stoiCore_invalid_iff _, stoiCore_oor_iff _, ?_⟩
  intro n hn
  unfold stoi stoiCore at hn
  split at hn
  · exact absurd hn (by simp)
  · exact ((rangeCheck_ok hn).1).symm ▸ rfl

/-- C8: integer parsing of caller-supplied text accepts any string whose
leading portion (after optional whitespace and sign) is a digit run, ignores
trailing non-numeric characters (set with "512abc" stores 512 and raises no
error), and always checks the 32-bit signed int range regardless of the
destination width (an override of "9999999999" fails even for a 64-bit
destination). -/
theorem c8_stoi_parsing (s : String) (n : Int) (ds t : List Char)
    (hok : stoi s = .ok n)
    (hds : ds ≠ [])
    (hdig : ∀ ch ∈ ds, isDigitChar ch = true)
    (ht : ∀ ch, t.head? = some ch → isDigitChar ch = false) :
    (-2147483648 ≤ n ∧ n ≤ 2147483647)
    ∧ stoi (String.mk (ds ++ t)) = stoi (String.mk ds)
    ∧ (dbcfg0.set DatabaseConfigParm.CACHE_MEM_SZ "512abc").1 = .ok ()
    ∧ ((dbcfg0.set DatabaseConfigParm.CACHE_MEM_SZ "512abc").2.as_Int int64
        DatabaseConfigParm.CACHE_MEM_SZ).1 = .ok 512
    ∧ Make_IntReadOnlyCV int64 [("K", "9999999999")] "K" 0 "h"
        = .error ParseError.outOfRange
    ∧ AbstractCV.set ⟨"K", "h", CVVal.intUpd int64 0⟩ "9999999999"
        = .error (CfgError.parse ParseError.outOfRange) := by
  refine ⟨?_, ?_, rfl, rfl, rfl, rfl⟩
  · unfold stoi stoiCore at hok
    split at hok
    · exact absurd hok (by simp)
    · obtain ⟨hmn, h1, h2⟩ := rangeCheck_ok hok
      constructor <;> omega
  · obtain ⟨d, ds', rfl⟩ : ∃ d ds', ds = d :: ds' := by
      cases ds with
      | nil => exact absurd rfl hds
      | cons a b => exact ⟨a, b, rfl⟩
    have hd : isDigitChar d = true := hdig d (List.mem_cons_self d ds')
    have hsp : isSpaceChar d = false := isDigitChar_not_space hd
    have hm : d ≠ '-' := isDigitChar_ne_minus hd
    have hpp : d ≠ '+' := isDigitChar_ne_plus hd
    have e3 : stripSign ((d :: ds') ++ t) = (false, (d :: ds') ++ t) := by
      simp [stripSign, hm, hpp]
    have e4 : stripSign (d :: ds') = (false, d :: ds') := by
      simp [stripSign, hm, hpp]
    have e5 : ((d :: ds') ++ t).takeWhile isDigitChar = d :: ds' :=
      takeWhile_all_append _ _ _ hdig ht
    have e6 : (d :: ds').takeWhile isDigitChar = d :: ds' := by
      have h0 := takeWhile_all_append isDigitChar (d :: ds') [] hdig (by simp)
      simpa using h0
    show stoiCore (((d :: ds') ++ t).dropWhile isSpaceChar)
        = stoiCore ((d :: ds').dropWhile isSpaceChar)
    rw [List.cons_append, List.dropWhile_cons, List.dropWhile_cons]
    simp only [hsp, Bool.false_eq_true, if_false, ← List.cons_append]
    unfold stoiCore
    rw [e3, e4, e5, e6]

/-- Witness for C8 at concrete digit and trailing lists. -/
theorem c8_witness :
    stoi "12" = .ok 12
    ∧ ((-2147483648 : Int) ≤ 12 ∧ (12 : Int) ≤ 2147483647)
    ∧ stoi (String.mk (['5', '1', '2'] ++ ['a', 'b', 'c'])) = stoi (String.mk ['5', '1', '2']) := by
  have h := c8_stoi_parsing "12" 12 ['5', '1', '2'] ['a', 'b', 'c'] rfl (by simp)
    (by decide)
    (by
      intro ch hch
      have h2 : some 'a' = some ch := hch
      injection h2 with h3
      rw [← h3]
      decide)
  exact ⟨rfl, h.1, h.2.1⟩
